import Mathlib

/-!
Verification of the attraction-graph subsystem of the One-Like-Away
repository: the in-memory attraction store (`updateAttraction`,
`decayAttraction`, `getUserAttractions`, `transferDemoAttractions`),
the feed recommendation scorer (`getRecommendedPosts`), topic
normalization (`normalizeToCanonical`, `normalizeToCluster`) and the
dominant-cluster assignment of the graph view (`fetchGraphData`).

Weights are JS numbers in the source; they are modelled exactly as
rationals (ℚ).  JS `Map` objects are modelled as insertion-ordered
association lists with the `Map` access discipline (lookup first
match, `set` replaces in place or appends, `delete` removes).
Database writes (`pendingWrites`, Supabase upserts) are I/O side
effects outside the in-memory state the claims are about and are not
modelled.
-/

namespace OneLikeAway

/-- Insertion-ordered association list modelling a JS `Map` keyed by strings. -/
abbrev JsMap (α : Type) : Type := List (String × α)

/-- `Map.get`: value of the first entry with the given key. -/
def JsMap.get {α : Type} : JsMap α → String → Option α
  | [], _ => none
  | (k', v) :: rest, k => if k' = k then some v else JsMap.get rest k

/-- `Map.set`: replace the value in place when the key is present, append otherwise. -/
def JsMap.set {α : Type} : JsMap α → String → α → JsMap α
  | [], k, v => [(k, v)]
  | (k', v') :: rest, k, v =>
      if k' = k then (k, v) :: rest else (k', v') :: JsMap.set rest k v

/-- `Map.delete`: remove the entry with the given key (keys are unique in
any map reachable through `Map` operations, so removing every match is the
same as removing the one entry). -/
def JsMap.del {α : Type} : JsMap α → String → JsMap α
  | [], _ => []
  | (k', v) :: rest, k =>
      if k' = k then JsMap.del rest k else (k', v) :: JsMap.del rest k

/-- The module-level attraction graph `source_id → target_id → weight`. -/
abbrev AttractionGraph : Type := JsMap (JsMap ℚ)

/-- `updateAttraction(sourceId, targetId, delta)` from the bot-runner module:
creates the source map when absent, then sets the target weight to the
previous weight (0 when absent) plus `delta`.  The database write queue it
also feeds is I/O and not part of the in-memory graph. -/
def updateAttraction (g : AttractionGraph) (sourceId targetId : String) (delta : ℚ) :
    AttractionGraph :=
  let targets := (JsMap.get g sourceId).getD []
  let newWeight := ((JsMap.get targets targetId).getD 0) + delta
  JsMap.set g sourceId (JsMap.set targets targetId newWeight)

/-- One pass of the `decayAttraction` loop over a profile: each weight is
multiplied by `factor`; entries whose decayed weight is `< 0.05` are
deleted, the others are updated in place. -/
def decayProfile (profile : JsMap ℚ) (factor : ℚ) : JsMap ℚ :=
  profile.filterMap (fun p =>
    let decayed := p.2 * factor
    if decayed < 0.05 then none else some (p.1, decayed))

/-- `decayAttraction(agentId, factor)`: no-op when the agent has no profile,
otherwise decays every outgoing edge of the agent. -/
def decayAttraction (g : AttractionGraph) (agentId : String) (factor : ℚ) :
    AttractionGraph :=
  match JsMap.get g agentId with
  | none => g
  | some profile => JsMap.set g agentId (decayProfile profile factor)

/-- `getUserAttractions(userId)`: the snapshot of an agent, an empty map when absent. -/
def getUserAttractions (g : AttractionGraph) (userId : String) : JsMap ℚ :=
  (JsMap.get g userId).getD []

/-- `getAgentTopicProfile(agentId)`: identical read used by the scorer. -/
def getAgentTopicProfile (g : AttractionGraph) (agentId : String) : JsMap ℚ :=
  (JsMap.get g agentId).getD []

/-- `transferDemoAttractions(demoUserId, realUserId)`: no-op when the source
has no entry or an empty profile; otherwise copies the source profile onto
the destination id and then deletes the source id. -/
def transferDemoAttractions (g : AttractionGraph) (demoUserId realUserId : String) :
    AttractionGraph :=
  match JsMap.get g demoUserId with
  | none => g
  | some demoAttractions =>
      if demoAttractions = [] then g
      else JsMap.del (JsMap.set g realUserId demoAttractions) demoUserId

-- ── Basic JsMap lemmas ──────────────────────────────────────────────────────

theorem JsMap.get_set_self {α : Type} (m : JsMap α) (k : String) (v : α) :
    JsMap.get (JsMap.set m k v) k = some v := by
  induction m with
  | nil => simp [JsMap.set, JsMap.get]
  | cons p rest ih =>
      by_cases h : p.1 = k
      · simp [JsMap.set, JsMap.get, h]
      · simp [JsMap.set, JsMap.get, h, ih]

theorem JsMap.get_set_other {α : Type} (m : JsMap α) (k k' : String) (v : α)
    (h : k ≠ k') : JsMap.get (JsMap.set m k v) k' = JsMap.get m k' := by
  induction m with
  | nil => simp [JsMap.set, JsMap.get, h]
  | cons p rest ih =>
      by_cases hp : p.1 = k
      · simp [JsMap.set, JsMap.get, hp, h]
      · simp only [JsMap.set, hp, if_false]
        by_cases hp' : p.1 = k'
        · simp [JsMap.get, hp']
        · simp [JsMap.get, hp', ih]

theorem JsMap.get_del_self {α : Type} (m : JsMap α) (k : String) :
    JsMap.get (JsMap.del m k) k = none := by
  induction m with
  | nil => simp [JsMap.del, JsMap.get]
  | cons p rest ih =>
      by_cases h : p.1 = k
      · simpa [JsMap.del, h] using ih
      · simpa [JsMap.del, h, JsMap.get] using ih

theorem JsMap.get_del_other {α : Type} (m : JsMap α) (k k' : String)
    (h : k ≠ k') : JsMap.get (JsMap.del m k) k' = JsMap.get m k' := by
  induction m with
  | nil => simp [JsMap.del, JsMap.get]
  | cons p rest ih =>
      by_cases hp : p.1 = k
      · have hp' : ¬ p.1 = k' := fun hh => h (hp.symm.trans hh)
        simpa [JsMap.del, hp, JsMap.get, hp', h] using ih
      · by_cases hp' : p.1 = k'
        · simp [JsMap.del, hp, JsMap.get, hp', Ne.symm h]
        · simpa [JsMap.del, hp, JsMap.get, hp'] using ih

-- ── Topic normalization ─────────────────────────────────────────────────────

/-- ASCII model of the JS `toLowerCase()` used on topic tags. -/
def lowerChar (c : Char) : Char :=
  if 65 ≤ c.toNat ∧ c.toNat ≤ 90 then Char.ofNat (c.toNat + 32) else c

/-- Lower-case a string (ASCII, as all tags in the repository are ASCII). -/
def lowerString (s : String) : String := ⟨s.data.map lowerChar⟩

/-- The synonym `Record` literal inside `normalizeToCanonical` (bot-runner module). -/
def canonicalTopicMap : JsMap String :=
  [("fitness", "fitness"), ("workout", "fitness"), ("gains", "fitness"), ("gym", "fitness"),
   ("motivation", "fitness"), ("mealprep", "fitness"), ("health", "fitness"), ("protein", "fitness"),
   ("tech", "tech"), ("ai", "tech"), ("coding", "tech"), ("programming", "tech"),
   ("innovation", "tech"), ("automation", "tech"), ("developers", "tech"), ("devlife", "tech"),
   ("crypto", "crypto"), ("bitcoin", "crypto"), ("blockchain", "crypto"), ("defi", "crypto"),
   ("hodl", "crypto"), ("investing", "crypto"),
   ("politics", "politics"), ("progressive", "politics"), ("conservative", "politics"),
   ("justice", "politics"), ("equality", "politics"), ("healthcare", "politics"),
   ("change", "politics"), ("reform", "politics"), ("workers", "politics"),
   ("values", "politics"), ("freedom", "politics"), ("family", "politics"),
   ("tradition", "politics"), ("liberty", "politics"),
   ("climate", "climate"), ("environment", "climate"), ("sustainability", "climate"),
   ("green", "climate"), ("action", "climate"), ("activism", "climate"),
   ("gaming", "gaming"), ("esports", "gaming"), ("streaming", "gaming"),
   ("games", "gaming"), ("streamer", "gaming"), ("pc", "gaming"), ("battlestation", "gaming"),
   ("food", "food"), ("cooking", "food"), ("recipe", "food"),
   ("foodie", "food"), ("chef", "food"), ("italian", "food"), ("baking", "food"), ("recipes", "food"),
   ("wellness", "wellness"), ("meditation", "wellness"), ("mindfulness", "wellness"),
   ("peace", "wellness"), ("selfcare", "wellness"), ("zen", "wellness"),
   ("conspiracy", "conspiracy"), ("truth", "conspiracy"), ("wakeup", "conspiracy"),
   ("question", "conspiracy"), ("research", "conspiracy"), ("aware", "conspiracy"),
   ("skeptic", "conspiracy")]

/-- `normalizeToCanonical(topic)`: `map[topic.toLowerCase()] || topic.toLowerCase()`. -/
def normalizeToCanonical (topic : String) : String :=
  (JsMap.get canonicalTopicMap (lowerString topic)).getD (lowerString topic)

/-- The `TOPIC_TO_CLUSTER` `Record` literal in the graph page (the version read
by `normalizeToCluster`). -/
def TOPIC_TO_CLUSTER : JsMap String :=
  [("fitness", "fitness"), ("workout", "fitness"), ("gains", "fitness"), ("gym", "fitness"),
   ("motivation", "fitness"), ("mealprep", "fitness"), ("health", "fitness"),
   ("tech", "tech"), ("ai", "tech"), ("coding", "tech"), ("programming", "tech"),
   ("innovation", "tech"), ("automation", "tech"), ("developers", "tech"), ("devlife", "tech"),
   ("crypto", "crypto"), ("bitcoin", "crypto"), ("blockchain", "crypto"), ("defi", "crypto"),
   ("hodl", "crypto"), ("investing", "crypto"),
   ("politics", "politics"), ("progressive", "politics"), ("conservative", "politics"),
   ("justice", "politics"), ("equality", "politics"), ("healthcare", "politics"),
   ("change", "politics"), ("reform", "politics"), ("workers", "politics"),
   ("values", "politics"), ("freedom", "politics"), ("family", "politics"),
   ("tradition", "politics"), ("liberty", "politics"),
   ("climate", "climate"), ("environment", "climate"), ("sustainability", "climate"),
   ("green", "climate"), ("action", "climate"), ("activism", "climate"),
   ("gaming", "gaming"), ("esports", "gaming"), ("streaming", "gaming"),
   ("games", "gaming"), ("streamer", "gaming"), ("pc", "gaming"),
   ("food", "food"), ("cooking", "food"), ("recipe", "food"),
   ("foodie", "food"), ("chef", "food"), ("italian", "food"), ("baking", "food"), ("recipes", "food"),
   ("wellness", "wellness"), ("meditation", "wellness"), ("mindfulness", "wellness"),
   ("peace", "wellness"), ("selfcare", "wellness"), ("zen", "wellness"),
   ("conspiracy", "conspiracy"), ("truth", "conspiracy"), ("wakeup", "conspiracy"),
   ("question", "conspiracy"), ("research", "conspiracy"), ("aware", "conspiracy")]

/-- `normalizeToCluster(topic)` from the graph page:
`TOPIC_TO_CLUSTER[topic.toLowerCase()] || topic.toLowerCase()`. -/
def normalizeToCluster (topic : String) : String :=
  (JsMap.get TOPIC_TO_CLUSTER (lowerString topic)).getD (lowerString topic)

/-- The canonical clusters: the key set of `CANONICAL_CLUSTER_COLORS` on the
graph page, which is also the value set of both synonym tables. -/
def canonicalClusters : List String :=
  ["fitness", "tech", "crypto", "politics", "climate", "gaming", "food", "wellness", "conspiracy"]

-- ── Cluster assignment in fetchGraphData (graph page) ───────────────────────

/-- Aggregation of the per-tag like counts of one user into per-cluster
counts, as done at the top of the dominant-cluster loop in `fetchGraphData`:
`clusterCounts.set(cluster, (clusterCounts.get(cluster) || 0) + count)`. -/
def clusterCounts (topics : JsMap ℚ) : JsMap ℚ :=
  topics.foldl (fun acc p =>
    let cluster := normalizeToCluster p.1
    JsMap.set acc cluster (((JsMap.get acc cluster).getD 0) + p.2)) []

/-- The `maxCluster`/`maxCount` scan of `fetchGraphData`: starts from
`("", 0)` and takes a new pair only on a strict increase of the count. -/
def maxClusterScan (cc : JsMap ℚ) : String × ℚ :=
  cc.foldl (fun best p => if best.2 < p.2 then (p.1, p.2) else best) ("", 0)

/-- The dominant cluster of one user in `fetchGraphData`: the cluster with
the strictly largest aggregated count (`none` when the scan kept the empty
initial cluster, i.e. when no positive count exists). -/
def dominantCluster (topics : JsMap ℚ) : Option String :=
  let r := maxClusterScan (clusterCounts topics)
  if r.1 = "" then none else some r.1

/-- The cluster label put on a graph node by `fetchGraphData`.  The previous
node (`existing`) is read only for position, velocity and the join-time
visual effect; the new label is `userDominantTopic.get(user.id)`, computed
from the like-derived topic counts alone, so the previous label is ignored. -/
def assignedCluster (prevLabel : Option String) (topics : JsMap ℚ) : Option String :=
  dominantCluster topics

-- ── Feed recommendation scorer (bot-runner module) ──────────────────────────

/-- Input shape of `getRecommendedPosts`: `{ id, topic_tags, user_id }`. -/
structure PostIn where
  id : String
  topic_tags : List String
  user_id : String
deriving DecidableEq, Repr

/-- Output shape of `getRecommendedPosts`: `{ id, topic_tags, affinity }`
(the cold-start branch also spreads the other post fields, which are not
read anywhere downstream). -/
structure ScoredPost where
  id : String
  topic_tags : List String
  affinity : ℚ
deriving DecidableEq, Repr

/-- Stable insertion of a scored post into a descending list: the JS
`sort((a, b) => b.affinity - a.affinity)` is a stable descending sort. -/
def insertDesc (x : ScoredPost) : List ScoredPost → List ScoredPost
  | [] => [x]
  | y :: ys => if y.affinity ≤ x.affinity then x :: y :: ys else y :: insertDesc x ys

/-- Stable descending sort by affinity, modelling the JS array sort. -/
def sortByAffinity (l : List ScoredPost) : List ScoredPost :=
  l.foldr insertDesc []

/-- `getRecommendedPosts(posts, agentId)`: filters out self-authored posts,
returns affinity 1 for every candidate on an empty profile, otherwise scores
each candidate by attraction overlap and sorts descending by affinity. -/
def getRecommendedPosts (posts : List PostIn) (g : AttractionGraph) (agentId : String) :
    List ScoredPost :=
  let candidates := posts.filter (fun p => decide (¬ p.user_id = agentId))
  let attraction := getAgentTopicProfile g agentId
  if attraction = [] then
    candidates.map (fun p => ⟨p.id, p.topic_tags, 1⟩)
  else
    let maxAttraction := ((attraction.map Prod.snd).filter (fun v => decide (0 < v))).foldl max 1
    let totalAttraction := (attraction.map Prod.snd).foldl (· + ·) 0
    let echoStrength := min (totalAttraction / 3) 1
    let scored := candidates.map (fun post =>
      let tags := post.topic_tags
      let score := tags.foldl
        (fun s tag => s + ((JsMap.get attraction ("topic:" ++ normalizeToCanonical tag)).getD 0)) 0
      let hasMatchingTag := tags.any
        (fun tag => decide (0 < ((JsMap.get attraction ("topic:" ++ normalizeToCanonical tag)).getD 0)))
      if hasMatchingTag = false then
        ⟨post.id, post.topic_tags, max 0.1 (0.5 * (1 - echoStrength))⟩
      else
        let maxPossible := maxAttraction * ((max tags.length 1 : ℕ) : ℚ)
        let normalized := if 0 < maxPossible then score / maxPossible else 0
        let boost := 0.6 + normalized * 0.4
        ⟨post.id, post.topic_tags, min 1 (boost + echoStrength * 0.15)⟩)
    sortByAffinity scored

-- ── Helper lemmas about the store ───────────────────────────────────────────

theorem getUserAttractions_updateAttraction (g : AttractionGraph) (s t : String) (δ : ℚ) :
    getUserAttractions (updateAttraction g s t δ) s
      = JsMap.set (getUserAttractions g s) t
          (((JsMap.get (getUserAttractions g s) t).getD 0) + δ) := by
  simp [updateAttraction, getUserAttractions, JsMap.get_set_self]

-- ── C1 ──────────────────────────────────────────────────────────────────────

/-- C1, counterexample: applying a delta of −1 to an absent edge leaves the
edge present with weight −1, which is negative and at/under the floor 0.05,
so `updateAttraction` neither clamps at 0 nor removes floor-level edges. -/
theorem C1_counterexample :
    JsMap.get (getUserAttractions (updateAttraction [] "demo-u" "topic:tech" (-1)) "demo-u")
        "topic:tech" = some (-1)
    ∧ (-1 : ℚ) < 0 ∧ (-1 : ℚ) < 0.05 := by
  refine ⟨?_, by norm_num, by norm_num⟩
  rw [getUserAttractions_updateAttraction]
  simp [getUserAttractions, JsMap.get, JsMap.get_set_self]

/-- C1, amended: `updateAttraction(sourceId, targetId, delta)` adds delta to
the edge, creating it at 0 first if absent; it performs no clamping and no
floor deletion, so the resulting weight is exactly previous + delta, may be
negative, and the edge stays present whatever the result (edges are only
removed later by decay). -/
theorem C1_apply_adds_delta_unclamped (g : AttractionGraph) (s t : String) (δ : ℚ) :
    JsMap.get (getUserAttractions (updateAttraction g s t δ) s) t
      = some (((JsMap.get (getUserAttractions g s) t).getD 0) + δ) := by
  rw [getUserAttractions_updateAttraction, JsMap.get_set_self]

-- ── C4 ──────────────────────────────────────────────────────────────────────

/-- C4: after `apply(a, t, +w)` with positive w and no other mutation, the
snapshot of `a` at `t` is the previous value (0 when absent) plus w, and
every other entry of the snapshot of `a` is unchanged. -/
theorem C4_snapshot_after_apply (g : AttractionGraph) (a t : String) (w : ℚ)
    (hw : 0 < w) :
    JsMap.get (getUserAttractions (updateAttraction g a t w) a) t
      = some (((JsMap.get (getUserAttractions g a) t).getD 0) + w)
    ∧ ∀ t2, t2 ≠ t →
        JsMap.get (getUserAttractions (updateAttraction g a t w) a) t2
          = JsMap.get (getUserAttractions g a) t2 := by
  constructor
  · rw [getUserAttractions_updateAttraction, JsMap.get_set_self]
  · intro t2 ht2
    rw [getUserAttractions_updateAttraction, JsMap.get_set_other]
    exact fun hh => ht2 hh.symm

/-- C4, witness at a concrete input: one like of weight 2 on a fresh actor. -/
theorem C4_witness :
    JsMap.get (getUserAttractions (updateAttraction [] "alice" "topic:tech" 2) "alice")
        "topic:tech" = some (0 + 2) := by
  have h := (C4_snapshot_after_apply [] "alice" "topic:tech" 2 (by norm_num)).1
  simpa [getUserAttractions, JsMap.get] using h

-- ── C9 ──────────────────────────────────────────────────────────────────────

/-- C9: identity transfer moves all outgoing edges from the old id to the new
id: transferring X with snapshot `{topic:tech: 3}` to Y empties X and gives Y
exactly that snapshot; a second call with the same old id is a no-op, and any
transfer whose source has no edges is a no-op rather than an error. -/
theorem C9_transfer_identity :
    (∀ (g : AttractionGraph) (old new2 : String),
        getUserAttractions g old = [] → transferDemoAttractions g old new2 = g)
    ∧ getUserAttractions
        (transferDemoAttractions [("X", [("topic:tech", 3)])] "X" "Y") "X" = []
    ∧ getUserAttractions
        (transferDemoAttractions [("X", [("topic:tech", 3)])] "X" "Y") "Y"
        = [("topic:tech", 3)]
    ∧ transferDemoAttractions
        (transferDemoAttractions [("X", [("topic:tech", 3)])] "X" "Y") "X" "Y"
        = transferDemoAttractions [("X", [("topic:tech", 3)])] "X" "Y" := by
  refine ⟨?_, ?_, ?_, ?_⟩
  · intro g old new2 hempty
    unfold transferDemoAttractions
    unfold getUserAttractions at hempty
    match hg : JsMap.get g old with
    | none => rfl
    | some demoAttractions =>
        rw [hg] at hempty
        simp only [Option.getD_some] at hempty
        simp [hempty]
  · simp +decide [transferDemoAttractions, getUserAttractions, JsMap.get, JsMap.set, JsMap.del]
  · simp +decide [transferDemoAttractions, getUserAttractions, JsMap.get, JsMap.set, JsMap.del]
  · simp +decide [transferDemoAttractions, getUserAttractions, JsMap.get, JsMap.set, JsMap.del]

/-- C9, witness: the no-op branch applied to the empty graph. -/
theorem C9_witness :
    transferDemoAttractions [] "nobody" "someone" = [] :=
  C9_transfer_identity.1 [] "nobody" "someone" (by simp [getUserAttractions, JsMap.get])

-- ── C10 ─────────────────────────────────────────────────────────────────────

/-- C10: when the source of a transfer has at least one edge, the destination
snapshot is replaced wholesale by the prior source snapshot (any edges the
destination already had are discarded), and every actor other than the source
and the destination keeps its edges unchanged. -/
theorem C10_transfer_replaces_wholesale (g : AttractionGraph) (old new2 : String)
    (hne : old ≠ new2) (hsome : getUserAttractions g old ≠ []) :
    getUserAttractions (transferDemoAttractions g old new2) new2
      = getUserAttractions g old
    ∧ ∀ x, x ≠ old → x ≠ new2 →
        getUserAttractions (transferDemoAttractions g old new2) x
          = getUserAttractions g x := by
  unfold getUserAttractions at hsome ⊢
  unfold transferDemoAttractions
  match hg : JsMap.get g old with
  | none => rw [hg] at hsome; simp at hsome
  | some d =>
      rw [hg] at hsome
      simp only [Option.getD_some] at hsome
      simp only [hsome, if_false]
      constructor
      · rw [JsMap.get_del_other _ _ _ hne, JsMap.get_set_self]
      · intro x hxold hxnew
        rw [JsMap.get_del_other _ _ _ (fun hh => hxold hh.symm),
            JsMap.get_set_other _ _ _ _ (fun hh => hxnew hh.symm)]

/-- C10, witness: transfer onto a destination that already holds an edge, in
the presence of an unrelated third actor. -/
theorem C10_witness :
    getUserAttractions
        (transferDemoAttractions
          [("X", [("topic:tech", 3)]), ("Y", [("topic:food", 7)]),
           ("Z", [("topic:gaming", 1)])] "X" "Y") "Y"
      = getUserAttractions
          [("X", [("topic:tech", 3)]), ("Y", [("topic:food", 7)]),
           ("Z", [("topic:gaming", 1)])] "X" :=
  (C10_transfer_replaces_wholesale
    [("X", [("topic:tech", 3)]), ("Y", [("topic:food", 7)]), ("Z", [("topic:gaming", 1)])]
    "X" "Y" (by decide) (by simp +decide [getUserAttractions, JsMap.get])).1

-- ── C2 ──────────────────────────────────────────────────────────────────────

/-- C2, counterexample: with weights {tech:10, food:6} the comparison is
ambiguous for the reference dominance ratio 1.8 (10 < 6 × 1.8), so by the
claim the label must stay at the previous/neutral state; the code instead
assigns `tech` immediately. -/
theorem C2_counterexample :
    (10 : ℚ) < 6 * 1.8
    ∧ assignedCluster none [("tech", 10), ("food", 6)] = some "tech" := by
  constructor
  · norm_num
  · have h1 : normalizeToCluster "tech" = "tech" := by decide
    have h2 : normalizeToCluster "food" = "food" := by decide
    norm_num +decide [assignedCluster, dominantCluster, clusterCounts, maxClusterScan,
      h1, h2, JsMap.get, JsMap.set]

/-- C2, amended: cluster assignment has no hysteresis and no dominance ratio.
On every refresh the label is recomputed as the cluster with the strictly
largest aggregated count, independent of the previous label: {tech:10,
food:6} makes the label `tech` immediately rather than keeping the previous
state, {tech:12, food:6} gives `tech`, and {tech:7, food:6} keeps `tech`
only because tech still has the largest count, even when the previous label
was a different cluster. -/
theorem C2_no_hysteresis :
    (∀ (prev1 prev2 : Option String) (topics : JsMap ℚ),
        assignedCluster prev1 topics = assignedCluster prev2 topics)
    ∧ assignedCluster none [("tech", 10), ("food", 6)] = some "tech"
    ∧ assignedCluster (some "tech") [("tech", 12), ("food", 6)] = some "tech"
    ∧ assignedCluster (some "food") [("tech", 7), ("food", 6)] = some "tech" := by
  have h1 : normalizeToCluster "tech" = "tech" := by decide
  have h2 : normalizeToCluster "food" = "food" := by decide
  refine ⟨fun _ _ _ => rfl, ?_, ?_, ?_⟩ <;>
    norm_num +decide [assignedCluster, dominantCluster, clusterCounts, maxClusterScan,
      h1, h2, JsMap.get, JsMap.set]

-- ── C8 ──────────────────────────────────────────────────────────────────────

/-- C8, counterexample: the tag `zzz` is not in the synonym table and is not
a canonical cluster, yet an actor whose aggregated counts are {zzz: 3} is
assigned the cluster label `zzz`: unmatched tags do participate in cluster
assignment. -/
theorem C8_counterexample :
    JsMap.get TOPIC_TO_CLUSTER "zzz" = none
    ∧ assignedCluster none [("zzz", 3)] = some "zzz"
    ∧ "zzz" ∉ canonicalClusters := by
  refine ⟨by decide, ?_, by decide⟩
  have h1 : normalizeToCluster "zzz" = "zzz" := by decide
  norm_num +decide [assignedCluster, dominantCluster, clusterCounts, maxClusterScan,
    h1, JsMap.get, JsMap.set]

/-- C8, amended: a tag whose lower-cased form is not in the synonym table is
lower-cased and passed through unchanged by `normalizeToCluster`, but such
passthrough tags do participate in cluster assignment: an unmatched tag with
the largest aggregated count becomes the cluster label of the actor. -/
theorem C8_passthrough_participates :
    (∀ tag : String, JsMap.get TOPIC_TO_CLUSTER (lowerString tag) = none →
        normalizeToCluster tag = lowerString tag)
    ∧ assignedCluster none [("zzz", 3)] = some "zzz" := by
  constructor
  · intro tag htag
    simp [normalizeToCluster, htag]
  · have h1 : normalizeToCluster "zzz" = "zzz" := by decide
    norm_num +decide [assignedCluster, dominantCluster, clusterCounts, maxClusterScan,
      h1, JsMap.get, JsMap.set]

/-- C8, witness: the unmatched mixed-case tag `QAnonDeep` lower-cases and
passes through. -/
theorem C8_witness :
    normalizeToCluster "QAnonDeep" = lowerString "QAnonDeep" :=
  C8_passthrough_participates.1 "QAnonDeep" (by decide)

-- ── C6 ──────────────────────────────────────────────────────────────────────

/-- C6: an actor with an empty snapshot gets every candidate back with
affinity exactly 1, in the input (recency) order, with nothing filtered out
(the candidate list excludes self-authored items, per the input contract of
the scorer). -/
theorem C6_cold_start (g : AttractionGraph) (a : String) (posts : List PostIn)
    (hempty : getAgentTopicProfile g a = [])
    (hcand : ∀ p ∈ posts, p.user_id ≠ a) :
    getRecommendedPosts posts g a
      = posts.map (fun p => ⟨p.id, p.topic_tags, 1⟩) := by
  have hfilter : posts.filter (fun p => !decide (p.user_id = a)) = posts :=
    List.filter_eq_self.mpr (fun p hp => by simpa using hcand p hp)
  simp [getRecommendedPosts, hempty, hfilter]

/-- C6, witness: one candidate, fresh actor. -/
theorem C6_witness :
    getRecommendedPosts [⟨"p1", ["anyTag"], "bob"⟩] [] "alice"
      = [⟨"p1", ["anyTag"], 1⟩] := by
  have h := C6_cold_start [] "alice" [⟨"p1", ["anyTag"], "bob"⟩]
    (by simp [getAgentTopicProfile, JsMap.get]) (by decide)
  simpa using h

-- ── C7 ──────────────────────────────────────────────────────────────────────

/-- C7: an actor with snapshot {topic:conspiracy: 5} ranking one item tagged
[conspiracy] and one tagged [food] puts the conspiracy item first with
affinity 1 (≥ 0.6) and gives the food item affinity 1/10, strictly lower yet
at least the floor 0.05. -/
theorem C7_conspiracy_ranking :
    getRecommendedPosts
        [⟨"postFood", ["food"], "chefBot"⟩, ⟨"postConspiracy", ["conspiracy"], "truthBot"⟩]
        [("actor1", [("topic:conspiracy", 5)])] "actor1"
      = [⟨"postConspiracy", ["conspiracy"], 1⟩, ⟨"postFood", ["food"], 1/10⟩]
    ∧ (3/5 : ℚ) ≤ 1 ∧ (1/10 : ℚ) < 1 ∧ (1/20 : ℚ) ≤ 1/10 := by
  refine ⟨?_, by norm_num, by norm_num, by norm_num⟩
  have h1 : normalizeToCanonical "food" = "food" := by decide
  have h2 : normalizeToCanonical "conspiracy" = "conspiracy" := by decide
  norm_num +decide [getRecommendedPosts, getAgentTopicProfile, JsMap.get, sortByAffinity,
    insertDesc, h1, h2]

-- ── Decay lemmas ────────────────────────────────────────────────────────────

/-- Key uniqueness: every map reachable through JS `Map` operations has
pairwise distinct keys. -/
def uniqueKeys {α : Type} (m : JsMap α) : Prop := (m.map Prod.fst).Nodup

theorem decayProfile_cons (p : String × ℚ) (rest : JsMap ℚ) (f : ℚ) :
    decayProfile (p :: rest) f
      = if p.2 * f < 0.05 then decayProfile rest f
        else (p.1, p.2 * f) :: decayProfile rest f := by
  by_cases h : p.2 * f < 0.05 <;> simp [decayProfile, List.filterMap_cons, h]

theorem JsMap.get_eq_none_of_not_mem {α : Type} (m : JsMap α) (k : String)
    (h : k ∉ m.map Prod.fst) : JsMap.get m k = none := by
  induction m with
  | nil => rfl
  | cons p rest ih =>
      simp only [List.map_cons, List.mem_cons, not_or] at h
      have hp : ¬ p.1 = k := fun hh => h.1 hh.symm
      simp [JsMap.get, hp, ih h.2]

theorem get_decayProfile_of_none (m : JsMap ℚ) (f : ℚ) (t : String)
    (h : JsMap.get m t = none) : JsMap.get (decayProfile m f) t = none := by
  induction m with
  | nil => rfl
  | cons p rest ih =>
      simp only [JsMap.get] at h
      by_cases hp : p.1 = t
      · simp [hp] at h
      · simp only [hp, if_false] at h
        rw [decayProfile_cons]
        by_cases hd : p.2 * f < 0.05
        · simp [hd, ih h]
        · simp [hd, JsMap.get, hp, ih h]

theorem decayProfile_keys_sublist (m : JsMap ℚ) (f : ℚ) :
    ((decayProfile m f).map Prod.fst).Sublist (m.map Prod.fst) := by
  induction m with
  | nil => simp [decayProfile]
  | cons p rest ih =>
      rw [decayProfile_cons]
      by_cases hd : p.2 * f < 0.05
      · simpa [hd] using ih.cons p.1
      · simpa [hd] using ih.cons₂ p.1

theorem uniqueKeys_decayProfile (m : JsMap ℚ) (f : ℚ) (h : uniqueKeys m) :
    uniqueKeys (decayProfile m f) :=
  List.Nodup.sublist (decayProfile_keys_sublist m f) h

theorem get_decayProfile (m : JsMap ℚ) (f : ℚ) (t : String) (w : ℚ)
    (hu : uniqueKeys m) (hget : JsMap.get m t = some w) :
    JsMap.get (decayProfile m f) t
      = if w * f < 0.05 then none else some (w * f) := by
  induction m with
  | nil => simp [JsMap.get] at hget
  | cons p rest ih =>
      have hu2 : uniqueKeys rest := (List.nodup_cons.mp hu).2
      by_cases hp : p.1 = t
      · have hw : w = p.2 := by
          simp only [JsMap.get, hp, if_true] at hget
          exact (Option.some_injective _ hget).symm
        subst hw
        have hnone : JsMap.get rest t = none := by
          apply JsMap.get_eq_none_of_not_mem
          have := (List.nodup_cons.mp hu).1
          simpa [hp] using this
        have hnone2 : JsMap.get (decayProfile rest f) t = none :=
          get_decayProfile_of_none rest f t hnone
        rw [decayProfile_cons]
        by_cases hd : p.2 * f < 0.05
        · simp [hd, hnone2]
        · simp [hd, JsMap.get, hp]
      · have hget2 : JsMap.get rest t = some w := by
          simpa [JsMap.get, hp] using hget
        rw [decayProfile_cons]
        by_cases hd : p.2 * f < 0.05
        · simpa [hd] using ih hu2 hget2
        · simpa [hd, JsMap.get, hp] using ih hu2 hget2

theorem get_decayProfile_ge_floor (m : JsMap ℚ) (f : ℚ) (t : String) (v : ℚ)
    (h : JsMap.get (decayProfile m f) t = some v) : 0.05 ≤ v := by
  induction m with
  | nil => simp [decayProfile, JsMap.get] at h
  | cons p rest ih =>
      rw [decayProfile_cons] at h
      by_cases hd : p.2 * f < 0.05
      · rw [if_pos hd] at h
        exact ih h
      · rw [if_neg hd] at h
        by_cases hp : p.1 = t
        · simp only [JsMap.get, hp, if_true] at h
          have := Option.some_injective _ h
          linarith [not_lt.mp hd]
        · simp only [JsMap.get, hp, if_false] at h
          exact ih h

theorem snapshot_decayAttraction (g : AttractionGraph) (a : String) (f : ℚ) :
    getUserAttractions (decayAttraction g a f) a
      = decayProfile (getUserAttractions g a) f := by
  unfold decayAttraction getUserAttractions
  match hg : JsMap.get g a with
  | none => simp [hg, decayProfile]
  | some profile => simp [hg, JsMap.get_set_self]

theorem snapshot_decayAttraction_iterate (g : AttractionGraph) (a : String) (f : ℚ)
    (n : ℕ) :
    getUserAttractions ((fun g2 => decayAttraction g2 a f)^[n] g) a
      = (fun m => decayProfile m f)^[n] (getUserAttractions g a) := by
  induction n generalizing g with
  | zero => rfl
  | succ k ih =>
      rw [Function.iterate_succ_apply, Function.iterate_succ_apply,
        ih (decayAttraction g a f), snapshot_decayAttraction]

theorem get_decayProfile_iterate (m : JsMap ℚ) (f : ℚ) (t : String) (w : ℚ)
    (hu : uniqueKeys m) (hget : JsMap.get m t = some w) (n : ℕ) :
    JsMap.get ((fun m2 => decayProfile m2 f)^[n] m) t = none
    ∨ (JsMap.get ((fun m2 => decayProfile m2 f)^[n] m) t = some (w * f ^ n)
       ∧ uniqueKeys ((fun m2 => decayProfile m2 f)^[n] m)) := by
  induction n with
  | zero => right; simpa using ⟨hget, hu⟩
  | succ k ih =>
      rw [Function.iterate_succ_apply']
      rcases ih with h | ⟨h, hu2⟩
      · left; exact get_decayProfile_of_none _ f t h
      · rw [get_decayProfile _ f t _ hu2 h]
        by_cases hd : w * f ^ k * f < 0.05
        · left; simp [hd]
        · right
          refine ⟨by simp [hd]; ring_nf, uniqueKeys_decayProfile _ f hu2⟩

theorem exists_pow_mul_lt (f : ℚ) (h0 : 0 < f) (h1 : f < 1) (w : ℚ) :
    ∃ n : ℕ, 0 < n ∧ w * f ^ n < 0.05 := by
  rcases le_or_lt w 0 with hw | hw
  · exact ⟨1, Nat.one_pos, by nlinarith⟩
  · obtain ⟨m, hm⟩ := exists_pow_lt_of_lt_one (show (0:ℚ) < 0.05 / w by positivity) h1
    have hmw : w * f ^ m < 0.05 := by
      rw [lt_div_iff hw] at hm
      linarith [hm]
    match m with
    | 0 =>
        refine ⟨1, Nat.one_pos, ?_⟩
        simp only [pow_zero, one_mul] at hmw
        nlinarith
    | k + 1 => exact ⟨k + 1, Nat.succ_pos k, hmw⟩

-- ── C3 ──────────────────────────────────────────────────────────────────────

/-- C3: for every actor and factor in (0,1), decay multiplies each surviving
outgoing weight by the factor, so each is non-increasing and non-negative;
any edge whose decayed weight drops under the floor 0.05 is deleted; and
repeated decay eventually removes every edge of the actor. -/
theorem C3_decay (g : AttractionGraph) (a : String) (f : ℚ)
    (h0 : 0 < f) (h1 : f < 1) (hu : uniqueKeys (getUserAttractions g a)) :
    (∀ t w2, JsMap.get (getUserAttractions (decayAttraction g a f) a) t = some w2 →
        ∃ w, JsMap.get (getUserAttractions g a) t = some w
          ∧ w2 = w * f ∧ w2 ≤ w ∧ 0 ≤ w2)
    ∧ (∀ t w, JsMap.get (getUserAttractions g a) t = some w → w * f < 0.05 →
        JsMap.get (getUserAttractions (decayAttraction g a f) a) t = none)
    ∧ (∀ t, ∃ n : ℕ,
        JsMap.get (getUserAttractions ((fun g2 => decayAttraction g2 a f)^[n] g) a) t
          = none) := by
  refine ⟨?_, ?_, ?_⟩
  · intro t w2 h
    rw [snapshot_decayAttraction] at h
    match hget : JsMap.get (getUserAttractions g a) t with
    | none => rw [get_decayProfile_of_none _ f t hget] at h; exact absurd h (by simp)
    | some w =>
        rw [get_decayProfile _ f t w hu hget] at h
        by_cases hd : w * f < 0.05
        · rw [if_pos hd] at h; exact absurd h (by simp)
        · rw [if_neg hd] at h
          have hw2 : w2 = w * f := (Option.some_injective _ h).symm
          have hfloor : (0.05 : ℚ) ≤ w2 := by rw [hw2]; linarith [not_lt.mp hd]
          have hwpos : 0 ≤ w := by nlinarith [hfloor, hw2]
          refine ⟨w, rfl, hw2, ?_, by linarith⟩
          rw [hw2]
          exact mul_le_of_le_one_right hwpos (le_of_lt h1)
  · intro t w hget hd
    rw [snapshot_decayAttraction, get_decayProfile _ f t w hu hget, if_pos hd]
  · intro t
    match hget : JsMap.get (getUserAttractions g a) t with
    | none => exact ⟨0, by simpa using hget⟩
    | some w =>
        obtain ⟨n, hn, hlt⟩ := exists_pow_mul_lt f h0 h1 w
        refine ⟨n, ?_⟩
        rw [snapshot_decayAttraction_iterate]
        rcases get_decayProfile_iterate _ f t w hu hget n with h | ⟨h, _⟩
        · exact h
        · exfalso
          match n, hn with
          | k + 1, _ =>
              rw [Function.iterate_succ_apply'] at h
              have := get_decayProfile_ge_floor _ f t _ h
              have hpow : w * f ^ (k + 1) < 0.05 := hlt
              linarith

/-- C3, witness: an edge at weight 0.08 decayed by 1/2 falls to 0.04, under
the floor, and is removed. -/
theorem C3_witness :
    JsMap.get
        (getUserAttractions
          (decayAttraction [("u", [("topic:tech", 2/25)])] "u" (1/2)) "u")
        "topic:tech" = none :=
  (C3_decay [("u", [("topic:tech", 2/25)])] "u" (1/2) (by norm_num) (by norm_num)
      (by simp [uniqueKeys, getUserAttractions, JsMap.get])).2.1
    "topic:tech" (2/25)
    (by simp [getUserAttractions, JsMap.get])
    (by norm_num)

-- ── C5 ──────────────────────────────────────────────────────────────────────

/-- C5, counterexample: for the snapshot {topic:food: 1/2} and one candidate
tagged [food], the formula of the claim — normalized = rawScore /
(maxSnapshotWeight × |S|) — evaluates to affinity 1, because the max
snapshot weight is 1/2; the code instead clamps the max below at 1 and
returns affinity 33/40. -/
theorem C5_counterexample :
    getRecommendedPosts [⟨"p1", ["food"], "authorB"⟩]
        [("u5", [("topic:food", 1/2)])] "u5"
      = [⟨"p1", ["food"], 33/40⟩]
    ∧ min 1 ((0.6 : ℚ) + ((1/2) / ((1/2) * 1)) * 0.4 + (min ((1/2) / 3) 1) * 0.15) = 1
    ∧ (33/40 : ℚ) ≠ 1 := by
  refine ⟨?_, by norm_num [min_def], by norm_num⟩
  have h1 : normalizeToCanonical "food" = "food" := by decide
  norm_num +decide [getRecommendedPosts, getAgentTopicProfile, JsMap.get, sortByAffinity,
    insertDesc, h1]

/-- Modelled from the amended claim wording for C5: echoStrength =
min(totalSnapshotWeight / 3, 1); a candidate with no positively weighted
topic gets max(0.1, 0.5·(1 − echoStrength)); a matching candidate gets
min(1, 0.6 + 0.4·normalized + 0.15·echoStrength) where normalized =
rawScore / (max(1, largest positive snapshot weight) × |S|) and rawScore is
the sum of the snapshot weights of the candidate topics S. -/
def amendedAffinity (attraction : JsMap ℚ) (tags : List String) : ℚ :=
  let weightOf : String → ℚ :=
    fun tag => (JsMap.get attraction ("topic:" ++ normalizeToCanonical tag)).getD 0
  let totalSnapshotWeight := (attraction.map Prod.snd).sum
  let echoStrength := min (totalSnapshotWeight / 3) 1
  if ∃ tag ∈ tags, 0 < weightOf tag then
    let maxPositive :=
      max 1 (((attraction.map Prod.snd).filter (fun v => decide (0 < v))).foldl max 0)
    let rawScore := (tags.map weightOf).sum
    let normalized := rawScore / (maxPositive * tags.length)
    min 1 (0.6 + 0.4 * normalized + 0.15 * echoStrength)
  else
    max 0.1 (0.5 * (1 - echoStrength))

theorem foldl_add_eq (l : List ℚ) (a : ℚ) : l.foldl (· + ·) a = a + l.sum := by
  induction l generalizing a with
  | nil => simp
  | cons x l ih => simp [ih, add_assoc]

theorem foldl_add_fn (tags : List String) (w : String → ℚ) (a : ℚ) :
    tags.foldl (fun s tag => s + w tag) a = a + (tags.map w).sum := by
  induction tags generalizing a with
  | nil => simp
  | cons x l ih => simp [ih, add_assoc]

theorem foldl_max_shift (l : List ℚ) (a b : ℚ) :
    l.foldl max (max a b) = max a (l.foldl max b) := by
  induction l generalizing b with
  | nil => rfl
  | cons x l ih => simp only [List.foldl_cons, max_assoc, ih]

theorem le_foldl_max (l : List ℚ) (a : ℚ) : a ≤ l.foldl max a := by
  induction l generalizing a with
  | nil => exact le_refl a
  | cons x l ih => exact le_trans (le_max_left a x) (ih (max a x))

/-- C5, amended: for a non-empty snapshot the scorer returns exactly the
candidates (self-authored excluded), each scored by the amended formula —
the one of the claim with the maximum snapshot weight clamped below at 1 —
sorted descending by affinity. -/
theorem C5_scorer_formula (g : AttractionGraph) (a : String) (posts : List PostIn)
    (hne : getAgentTopicProfile g a ≠ []) :
    getRecommendedPosts posts g a
      = sortByAffinity ((posts.filter (fun p => decide (¬ p.user_id = a))).map
          (fun p => ⟨p.id, p.topic_tags,
            amendedAffinity (getAgentTopicProfile g a) p.topic_tags⟩)) := by
  simp only [getRecommendedPosts, if_neg hne]
  congr 1
  apply List.map_congr_left
  intro p hp
  dsimp only
  have hecho : ((getAgentTopicProfile g a).map Prod.snd).foldl (· + ·) 0
      = ((getAgentTopicProfile g a).map Prod.snd).sum := by
    rw [foldl_add_eq]; ring
  have hmaxeq :
      (((getAgentTopicProfile g a).map Prod.snd).filter (fun v => decide (0 < v))).foldl max 1
        = max 1 ((((getAgentTopicProfile g a).map Prod.snd).filter
            (fun v => decide (0 < v))).foldl max 0) := by
    have := foldl_max_shift
      (((getAgentTopicProfile g a).map Prod.snd).filter (fun v => decide (0 < v))) 1 0
    simpa using this
  by_cases hmatch : ∃ tag ∈ p.topic_tags,
      0 < (JsMap.get (getAgentTopicProfile g a)
            ("topic:" ++ normalizeToCanonical tag)).getD 0
  · have hany : (p.topic_tags.any fun tag =>
        decide (0 < (JsMap.get (getAgentTopicProfile g a)
          ("topic:" ++ normalizeToCanonical tag)).getD 0)) = true := by
      rw [List.any_eq_true]
      obtain ⟨tag, htag, hpos⟩ := hmatch
      exact ⟨tag, htag, by simpa using hpos⟩
    have hlen : 1 ≤ p.topic_tags.length := by
      obtain ⟨tag, htag, _⟩ := hmatch
      exact List.length_pos.mpr (List.ne_nil_of_mem htag)
    have hlenmax : max p.topic_tags.length 1 = p.topic_tags.length :=
      Nat.max_eq_left hlen
    have hmax1 : (1 : ℚ) ≤
        (((getAgentTopicProfile g a).map Prod.snd).filter
          (fun v => decide (0 < v))).foldl max 1 :=
      le_foldl_max _ 1
    have hpossible :
        (0 : ℚ) < (((getAgentTopicProfile g a).map Prod.snd).filter
            (fun v => decide (0 < v))).foldl max 1
          * ((max p.topic_tags.length 1 : ℕ) : ℚ) := by
      have h2 : (1 : ℚ) ≤ ((max p.topic_tags.length 1 : ℕ) : ℚ) := by
        rw [hlenmax]
        exact_mod_cast hlen
      nlinarith
    rw [hany]
    simp only [Bool.true_eq_false, if_false, amendedAffinity]
    rw [if_pos hmatch, if_pos hpossible]
    simp only [ScoredPost.mk.injEq, true_and]
    rw [foldl_add_fn, zero_add, hecho, hmaxeq, hlenmax]
    congr 1
    ring
  · have hany : (p.topic_tags.any fun tag =>
        decide (0 < (JsMap.get (getAgentTopicProfile g a)
          ("topic:" ++ normalizeToCanonical tag)).getD 0)) = false := by
      rw [List.any_eq_false]
      intro tag htag
      simp only [decide_eq_true_eq]
      exact fun hpos => hmatch ⟨tag, htag, hpos⟩
    rw [hany]
    simp only [eq_self_iff_true, if_true, amendedAffinity]
    rw [if_neg hmatch]
    simp only [ScoredPost.mk.injEq, true_and]
    rw [hecho]

/-- C5, witness: the non-trivial branch of the amended formula at the
counterexample input. -/
theorem C5_witness :
    getRecommendedPosts [⟨"p1", ["food"], "authorB"⟩]
        [("u5", [("topic:food", 1/2)])] "u5"
      = sortByAffinity
          [⟨"p1", ["food"], amendedAffinity [("topic:food", 1/2)] ["food"]⟩] := by
  have h := C5_scorer_formula [("u5", [("topic:food", 1/2)])] "u5"
    [⟨"p1", ["food"], "authorB"⟩]
    (by simp [getAgentTopicProfile, JsMap.get])
  simpa +decide [getAgentTopicProfile, JsMap.get] using h

end OneLikeAway
